import Mathlib

/-!
Verification of the persisted graph store and its lazy-build concurrency model
(`src/lib/graph-store.ts`) together with the query orchestrator of the MCP
server entry point (`src/index.ts`).

The TypeScript classes are shallowly embedded as pure Lean functions:

* the on-disk layout (`config.json`, `index.json`, `chunks/batch-NNNN.json`,
  `embeddings/batch-NNNN.bin`) is a `StoreFS` value: each file is either
  missing, unreadable/unparsable (`corrupt`, modelling a thrown and caught
  read/parse exception) or holds a parsed value;
* machine floats appear in the store only as opaque 32-bit patterns that are
  copied bit-exactly between file bytes and in-memory vectors, so an embedding
  value is modelled as its bit pattern, a `Nat < 2^32`;
* the in-process memoization maps (`chunksCache`, `embeddingsCache`) cache the
  value the pure read produces; since the file system is immutable inside one
  model run, reads are modelled directly as pure functions of the `StoreFS`;
* the async build state machine is modelled by atomic steps: a
  `getOrBuildGraphRAG` call runs synchronously up to its single `await`
  (`callStart`), and the continuation after the `await` is the `settle` step.
  The cooperative single-threaded scheduler makes those two blocks atomic.
-/

/-- `GraphBuildState` of `graph-store.ts` (IDLE / BUILDING / READY / FAILED). -/
inductive GraphBuildState where
  | idle
  | building
  | ready
  | failed
deriving DecidableEq, Repr

/-- `GraphChunkData` of `types/index.ts`. -/
structure GraphChunkData where
  id : String
  text : String
  source : String
  chunkIndex : Nat
deriving DecidableEq, Repr

/-- `GraphConfig` of `graph-store.ts` (contents of `config.json`).  The
`threshold` float is only passed through, never computed with, so it is
modelled as an integer. -/
structure GraphConfig where
  version : String
  dimension : Nat
  threshold : Int
  createdAt : Nat
  updatedAt : Nat
deriving DecidableEq, Repr

/-- `GraphIndex` of `graph-store.ts` (contents of `index.json`). -/
structure GraphIndex where
  chunkCount : Nat
  batchSize : Nat
  lastUpdated : Nat
deriving DecidableEq, Repr

/-- State of one on-disk file holding a value of type `α`: absent
(`existsSync` false), present but throwing on read/parse, or valid. -/
inductive FileState (α : Type) where
  | missing
  | corrupt
  | valid (a : α)
deriving DecidableEq

/-- The on-disk layout of one store directory.  Embedding batch files are raw
byte lists (each byte a `Nat < 256`); chunk batch files are parsed
`{chunks: ...}` envelopes. -/
structure StoreFS where
  graphDirExists : Bool
  configFile : FileState GraphConfig
  indexFile : FileState GraphIndex
  chunkBatches : Nat → FileState (List GraphChunkData)
  embeddingBatches : Nat → FileState (List Nat)

/-- The data-loading fields of a `GraphStore` instance: `this.config`,
`this.index`, `this.batchSize`. -/
structure StoreData where
  config : Option GraphConfig
  index : Option GraphIndex
  batchSize : Nat
deriving DecidableEq, Repr

/-- A freshly constructed `GraphStore` (constructor with no batch-size
argument): `config` and `index` are null, `batchSize` is
`DEFAULT_BATCH_SIZE = 1000`. -/
def freshStoreData : StoreData :=
  { config := none, index := none, batchSize := 1000 }

/-- `GraphStore.getOptimalBatchSize`.  The source guards the override with JS
truthiness (`if (requestedBatchSize)`), so an absent override and an override
of `0` both fall through to the adaptive tiers. -/
def getOptimalBatchSize (chunkCount : Nat) (requestedBatchSize : Option Nat) : Nat :=
  if requestedBatchSize.getD 0 ≠ 0 then
    requestedBatchSize.getD 0
  else if chunkCount < 5000 then
    1000
  else if chunkCount < 50000 then
    5000
  else if chunkCount < 200000 then
    10000
  else
    20000

/-- `GraphStore.loadConfig`: null when the file is missing, fails to parse, or
has a version other than `"1.0"`. -/
def loadConfig (fs : StoreFS) : Option GraphConfig :=
  match fs.configFile with
  | .missing => none
  | .corrupt => none
  | .valid config => if config.version ≠ "1.0" then none else some config

/-- `GraphStore.loadIndex`: null when the file is missing or fails to parse. -/
def loadIndex (fs : StoreFS) : Option GraphIndex :=
  match fs.indexFile with
  | .missing => none
  | .corrupt => none
  | .valid index => some index

/-- `GraphStore.load(requestedBatchSize?)`: if the graph directory does not
exist, return false without touching `config`/`index`; otherwise set both
fields, recompute `batchSize` adaptively when the index loaded, and return
whether both files loaded. -/
def load (st : StoreData) (fs : StoreFS) (requestedBatchSize : Option Nat) :
    StoreData × Bool :=
  if fs.graphDirExists = false then
    (st, false)
  else
    let config := loadConfig fs
    let index := loadIndex fs
    let batchSize :=
      match index with
      | some i => getOptimalBatchSize i.chunkCount requestedBatchSize
      | none => st.batchSize
    ({ config := config, index := index, batchSize := batchSize },
     config.isSome && index.isSome)

/-- `GraphStore.hasData`: `this.index !== null && this.index.chunkCount > 0`.
Note it does not consult `this.config`. -/
def hasData (st : StoreData) : Bool :=
  match st.index with
  | none => false
  | some i => decide (0 < i.chunkCount)

/-- `Math.ceil(chunkCount / batchSize)`, the batch count used by
`buildGraphRAGInternal`, `getChunks` and `getEmbeddings`. -/
def totalBatches (chunkCount batchSize : Nat) : Nat :=
  (chunkCount + batchSize - 1) / batchSize

/-- Derived from the spec's partition description ("Batch `i` covers global
record indices `[i*batchSize, (i+1)*batchSize)`", last batch may be shorter):
the number of records belonging to batch `i`. -/
def batchLen (chunkCount batchSize i : Nat) : Nat :=
  min batchSize (chunkCount - i * batchSize)

/-- The four little-endian bytes of a 32-bit value, as written by
`writeUInt32LE` / a little-endian `Float32Array` store of the bit pattern. -/
def uint32leBytes (v : Nat) : List Nat :=
  [v % 256, v / 256 % 256, v / 65536 % 256, v / 16777216 % 256]

/-- `buffer.readUInt32LE(off)` (also the bit pattern a little-endian float32
read at `off` observes).  Out-of-range bytes read as 0 here; the real call
throws instead, and every use below is guarded by an explicit length check
that models that throw. -/
def readUInt32LE (bytes : List Nat) (off : Nat) : Nat :=
  bytes.getD off 0 + 256 * bytes.getD (off + 1) 0 +
    65536 * bytes.getD (off + 2) 0 + 16777216 * bytes.getD (off + 3) 0

/-- A Node `Buffer` as `fs.readFileSync` returns it: a view of `byteLength`
bytes at `byteOffset` into a backing allocation (`buffer.buffer`, here
`pool`), with `byteOffset + byteLength ≤ pool.length`.  For reads of at least
4 KiB Node allocates a fresh exactly-sized backing (`byteOffset = 0`,
`pool.length = byteLength`); smaller reads are carved out of a shared 8 KiB
allocation pool, so `pool` extends beyond the file's bytes and holds residual
bytes of earlier allocations.  Node keeps pool offsets 8-byte aligned, so the
`Float32Array` alignment requirement on `byteOffset + 4` always holds and is
not modelled. -/
structure NodeBuffer where
  pool : List Nat
  byteOffset : Nat
  byteLength : Nat

/-- `GraphStore.decodeEmbeddings` on an arbitrary Node buffer.  `none` models
the exceptions the source can throw: `buffer.readUInt32LE(0)` is
bounds-checked against the buffer's own `byteLength` and throws on a file
shorter than 4 bytes, while the
`Float32Array(buffer.buffer, buffer.byteOffset + 4, count * dimension)` view
construction is bounds-checked against the *backing* `pool`, so it throws
only when even the pool is too short.  Element reads go straight to the pool:
a truncated file carved from a large enough pool decodes without any error,
yielding whatever bytes follow the file in the pool.  Floats are handled
purely as 32-bit patterns, so each decoded value is the `Nat < 2^32` read at
its offset. -/
def decodeEmbeddingsNode (buf : NodeBuffer) (dimension : Nat) :
    Option (List (List Nat)) :=
  if buf.byteLength < 4 then
    none
  else
    let count := readUInt32LE buf.pool buf.byteOffset
    if buf.pool.length < buf.byteOffset + 4 + count * dimension * 4 then
      none
    else
      some ((List.range count).map fun i =>
        (List.range dimension).map fun j =>
          readUInt32LE buf.pool (buf.byteOffset + 4 + (i * dimension + j) * 4))

/-- `GraphStore.decodeEmbeddings` specialised to a buffer whose backing
allocation is exactly the file's bytes (`byteOffset = 0`, `pool` = the file),
which is what `fs.readFileSync` returns for files of at least 4 KiB.  The
general form, faithful also to Node's pooled small buffers, is
`decodeEmbeddingsNode`; `decodeEmbeddings_exact_backing` proves this function
equal to that specialisation, and `decodeEmbeddingsNode_wellFormed` shows
that for well-formed batch files (exactly `4 + count * dimension * 4` bytes)
every pooled placement agrees with this function, so the two can differ only
on truncated small files. -/
def decodeEmbeddings (buffer : List Nat) (dimension : Nat) :
    Option (List (List Nat)) :=
  if buffer.length < 4 then
    none
  else
    let count := readUInt32LE buffer 0
    if buffer.length < 4 + count * dimension * 4 then
      none
    else
      some ((List.range count).map fun i =>
        (List.range dimension).map fun j =>
          readUInt32LE buffer (4 + (i * dimension + j) * 4))

/-- Modelled from the spec: the batch encoder lives in the embedder project,
not in this repository; §4.1 fixes the format as
`[uint32 little-endian record_count][record_count × dimension × float32
little-endian]`, row-major.  Each float is written as the four little-endian
bytes of its bit pattern. -/
def encodeEmbeddings (records : List (List Nat)) : List Nat :=
  uint32leBytes records.length ++
    records.flatMap (fun r => r.flatMap uint32leBytes)

/-- `GraphStore.loadChunkBatch`: missing file yields `[]`, a read/parse
exception is caught and yields `[]`, otherwise the parsed chunk list. -/
def loadChunkBatch (fs : StoreFS) (batchNum : Nat) : List GraphChunkData :=
  match fs.chunkBatches batchNum with
  | .missing => []
  | .corrupt => []
  | .valid chunks => chunks

/-- `GraphStore.loadEmbeddingBatch`: missing file yields `[]`; a read
exception, a null `this.config` (which the source turns into a thrown error)
or a decode exception are all caught by the surrounding `try` and yield `[]`.
Decoding always uses `this.config.dimension`, not any override.  The read
buffer is represented here by its exact file bytes: for well-formed batch
files every pooled placement of the buffer decodes identically
(`decodeEmbeddingsNode_wellFormed`), so this abstraction diverges from the
program only on truncated small files, which is the subject of C9. -/
def loadEmbeddingBatch (st : StoreData) (fs : StoreFS) (batchNum : Nat) :
    List (List Nat) :=
  match fs.embeddingBatches batchNum with
  | .missing => []
  | .corrupt => []
  | .valid buffer =>
    match st.config with
    | none => []
    | some c =>
      match decodeEmbeddings buffer c.dimension with
      | none => []
      | some embeddings => embeddings

/-- The batch numbers of the wave starting at `waveStart`
(`PARALLEL_BATCH_LIMIT = 50` is hard-coded in `buildGraphRAGInternal`):
`[waveStart, min (waveStart + 50) totalBatches)`. -/
def waveBatchNums (waveStart total : Nat) : List Nat :=
  (List.range (min (waveStart + 50) total - waveStart)).map (waveStart + ·)

/-- The successive waves of the loading loop
`for (waveStart = 0; waveStart < totalBatches; waveStart += 50)`.  The fuel
argument bounds the iteration count; `total` steps always suffice because
every iteration advances `waveStart` by at least one. -/
def wavesAux (fuel : Nat) (waveStart total : Nat) : List (List Nat) :=
  match fuel with
  | 0 => []
  | fuel + 1 =>
    if waveStart < total then
      waveBatchNums waveStart total ::
        wavesAux fuel (min (waveStart + 50) total) total
    else
      []

/-- All waves of a loading run over `total` batches. -/
def waves (total : Nat) : List (List Nat) :=
  wavesAux total 0 total

/-- The loading loop of `buildGraphRAGInternal`: for each wave, `Promise.all`
produces the per-batch `{chunks, embeddings}` results in batch order, and the
inner loop appends them to the running `allChunks` / `allEmbeddings` before
the next wave starts. -/
def waveLoadAll (loadC : Nat → List GraphChunkData) (loadE : Nat → List (List Nat))
    (total : Nat) : List GraphChunkData × List (List Nat) :=
  (waves total).foldl
    (fun acc wave =>
      let waveResults := wave.map fun batchNum => (loadC batchNum, loadE batchNum)
      waveResults.foldl (fun acc2 r => (acc2.1 ++ r.1, acc2.2 ++ r.2)) acc)
    ([], [])

/-- `GraphStore.getChunks`: the naive sequential loop over batches `0` through
the last, appending each batch's chunks. -/
def getChunks (st : StoreData) (fs : StoreFS) : List GraphChunkData :=
  match st.index with
  | none => []
  | some i =>
    (List.range (totalBatches i.chunkCount st.batchSize)).foldl
      (fun allChunks batchNum => allChunks ++ loadChunkBatch fs batchNum) []

/-- `GraphStore.getEmbeddings`: the naive sequential loop over batches `0`
through the last, appending each batch's embeddings. -/
def getEmbeddings (st : StoreData) (fs : StoreFS) : List (List Nat) :=
  match st.index with
  | none => []
  | some i =>
    (List.range (totalBatches i.chunkCount st.batchSize)).foldl
      (fun allEmbeddings batchNum => allEmbeddings ++ loadEmbeddingBatch st fs batchNum) []

/-- The data handed to the external graph engine by a completed build: the
engine's `createGraph(graphChunks, graphEmbeddings)` receives exactly
`chunks` (mapped to `{text, metadata:{id, source, chunkIndex}}`) and
`embeddings` (mapped to `{vector}`) positionally, so this value models the
resulting `GraphRAG` handle. -/
structure BuildResultData where
  dimension : Nat
  threshold : Int
  chunks : List GraphChunkData
  embeddings : List (List Nat)
deriving DecidableEq, Repr

/-- `GraphStore.loadGraphFromCache`: every path of the source returns null
(missing cache file, missing/stale metadata, and — even with valid
metadata — the engine exposes no deserialization), so the cached-graph lookup
never short-circuits a build. -/
def loadGraphFromCache (_dimension : Nat) (_threshold : Int) :
    Option BuildResultData :=
  none

/-- `GraphStore.buildGraphRAGInternal(dimension?, threshold?)`: null when the
store has no data; an exception (`"Graph dimension not set"`) when the
effective dimension is 0, raised before any batch file is consulted; otherwise
the wave-parallel load of every batch followed by graph construction.  The
best-effort `saveGraphToCache` call writes only metadata and does not affect
the returned handle. -/
def buildGraphRAGInternal (st : StoreData) (fs : StoreFS)
    (dimension : Option Nat) (threshold : Option Int) :
    Except String (Option BuildResultData) :=
  if hasData st = false ∨ st.config.isNone ∨ st.index.isNone then
    .ok none
  else
    match st.config, st.index with
    | some c, some i =>
      let dim := dimension.getD c.dimension
      let thresh := threshold.getD c.threshold
      if dim = 0 then
        .error "Graph dimension not set"
      else
        match loadGraphFromCache dim thresh with
        | some cachedGraph => .ok (some cachedGraph)
        | none =>
          let total := totalBatches i.chunkCount st.batchSize
          let loaded := waveLoadAll (loadChunkBatch fs) (loadEmbeddingBatch st fs) total
          .ok (some { dimension := dim, threshold := thresh,
                      chunks := loaded.1, embeddings := loaded.2 })
    | _, _ => .ok none

deriving instance DecidableEq for Except

/-- Outcome of the build promise `this.buildPromise`: it resolves with a
handle, resolves with null, or rejects with an error. -/
abbrev BuildOutcome := Except String (Option BuildResultData)

/-- The mutable graph-state fields of a `GraphStore` instance, plus model
bookkeeping: `pendingSettle` records that a started build's continuation
(the code after `await this.buildPromise`) has not yet run, and
`nextPromiseId` names promises so that distinct builds are distinguishable. -/
structure StoreSt where
  graphState : GraphBuildState
  graphInstance : Option BuildResultData
  buildPromise : Option Nat
  buildErrState : Option String
  pendingSettle : Bool
  pipelineInvocations : Nat
  nextPromiseId : Nat
deriving DecidableEq, Repr

/-- A fresh `GraphStore` instance: state IDLE, no instance, no promise, no
recorded error, and the construction pipeline never invoked. -/
def freshStore : StoreSt :=
  { graphState := .idle, graphInstance := none, buildPromise := none,
    buildErrState := none, pendingSettle := false,
    pipelineInvocations := 0, nextPromiseId := 0 }

/-- What a `getOrBuildGraphRAG` call returns at its first suspension point. -/
inductive CallRes where
  | value (g : Option BuildResultData)
  | joins (p : Nat)
  | awaits (p : Nat)
deriving DecidableEq, Repr

/-- The synchronous prefix of `getOrBuildGraphRAG`: return the instance if
READY, adopt the in-flight promise if BUILDING, return null if FAILED;
otherwise set state to BUILDING, create the build promise (invoking the
pipeline exactly once) and await it. -/
def callStart (s : StoreSt) : StoreSt × CallRes :=
  if s.graphState = .ready ∧ s.graphInstance.isSome then
    (s, .value s.graphInstance)
  else if s.graphState = .building ∧ s.buildPromise.isSome then
    (s, .joins (s.buildPromise.getD 0))
  else if s.graphState = .failed then
    (s, .value none)
  else
    ({ s with graphState := .building,
              buildPromise := some s.nextPromiseId,
              pendingSettle := true,
              pipelineInvocations := s.pipelineInvocations + 1,
              nextPromiseId := s.nextPromiseId + 1 },
     .awaits s.nextPromiseId)

/-- The continuation of the caller that started the build, after
`await this.buildPromise`: a truthy result moves the state to READY and caches
the instance; a null result moves it to FAILED; a rejection is caught, moves
it to FAILED, records `buildError` and returns null. -/
def settle (s : StoreSt) (r : BuildOutcome) : StoreSt × Option BuildResultData :=
  match r with
  | .ok (some g) =>
    ({ s with graphState := .ready, graphInstance := some g,
              pendingSettle := false }, some g)
  | .ok none =>
    ({ s with graphState := .failed, pendingSettle := false }, none)
  | .error e =>
    ({ s with graphState := .failed, buildErrState := some e,
              pendingSettle := false }, none)

/-- What the caller that started the build hands back to its own caller once
the promise settles with outcome `r`: the starter catches a rejection and
returns null. -/
def starterResult (s : StoreSt) (r : BuildOutcome) : BuildOutcome :=
  .ok (settle s r).2

/-- What a caller that joined the in-flight promise
(`return this.buildPromise`) hands back: the promise's outcome verbatim, so a
rejection propagates to that caller. -/
def joinerResult (r : BuildOutcome) : BuildOutcome :=
  r

/-- One atomic scheduling step of a store instance: a call's synchronous
prefix, or the pending settle continuation firing with some build outcome. -/
inductive StoreStep : StoreSt → StoreSt → Prop where
  | call (s : StoreSt) : StoreStep s (callStart s).1
  | settleStep (s : StoreSt) (r : BuildOutcome) (h : s.pendingSettle = true) :
      StoreStep s (settle s r).1

/-- The store states reachable from a fresh instance. -/
def ReachableStore (s : StoreSt) : Prop :=
  Relation.ReflTransGen StoreStep freshStore s

/-- The `mode` input of the `query_index` tool. -/
inductive Mode where
  | auto
  | vector
  | graph
deriving DecidableEq, Repr

/-- One entry of the tool's result list (`QueryResult` of `types/index.ts`);
the score float is modelled as an integer, used only for comparison. -/
structure QueryResult where
  text : String
  source : String
  score : Int
  chunkIndex : Nat
deriving DecidableEq, Repr

/-- Insert one result into a list already sorted descending by score, keeping
it in front of later-arriving results of equal score. -/
def insertResult (r : QueryResult) : List QueryResult → List QueryResult
  | [] => [r]
  | x :: xs => if x.score ≤ r.score then r :: x :: xs else x :: insertResult r xs

/-- `results.sort((a, b) => b.score - a.score)`: a stable sort, descending by
score. -/
def sortResults (results : List QueryResult) : List QueryResult :=
  results.foldr insertResult []

/-- Which search the orchestrator ends up executing; `warned` records that a
vector search was reached through one of the warning-emitting fallback
branches rather than by plain mode resolution. -/
inductive SearchKind where
  | graphSearch (g : BuildResultData)
  | vectorSearch (warned : Bool)
deriving DecidableEq, Repr

/-- The mode-resolution block of `queryIndexTool.execute` (`src/index.ts`):
throw for a forced graph query with no graph available; otherwise resolve
`useGraph`; while BUILDING or FAILED fall back to vector search with a
warning, without touching the build; otherwise call `getOrBuildGraphRAG` and
fall back with a warning if it yields null.  `pipelineOutcome` is the outcome
of the build promise the call awaits or joins, when it reaches one; a
rejection of a joined promise propagates out of `execute`'s inner logic. -/
def resolveSearch (enableGraph hasGraphData : Bool) (mode : Mode) (s : StoreSt)
    (pipelineOutcome : BuildOutcome) : Except String (SearchKind × StoreSt) :=
  if mode = .graph ∧ ¬(enableGraph = true ∧ hasGraphData = true) then
    .error "Graph search requested but graph is not available. Use --enable-graph and ensure graph data exists."
  else
    let useGraph :=
      match mode with
      | .graph => true
      | .auto => enableGraph && hasGraphData
      | .vector => false
    if useGraph then
      if s.graphState = .building then
        .ok (.vectorSearch true, s)
      else if s.graphState = .failed then
        .ok (.vectorSearch true, s)
      else
        match callStart s with
        | (s1, .value (some g)) => .ok (.graphSearch g, s1)
        | (s1, .value none) => .ok (.vectorSearch true, s1)
        | (s1, .joins _) =>
          match joinerResult pipelineOutcome with
          | .ok (some g) => .ok (.graphSearch g, s1)
          | .ok none => .ok (.vectorSearch true, s1)
          | .error e => .error e
        | (s1, .awaits _) =>
          match settle s1 pipelineOutcome with
          | (s2, some g) => .ok (.graphSearch g, s2)
          | (s2, none) => .ok (.vectorSearch true, s2)
    else
      .ok (.vectorSearch false, s)

/-- The whole `queryIndexTool.execute` body around the chosen search:
`graphResults`/`vectorResults` stand for what the two external engines return
for this query; the outer catch converts any uncaught exception into an empty
result set, in which case no search is executed.  Returns the results, which
search ran (if any), and the store state afterwards. -/
def executeQuery (enableGraph hasGraphData : Bool) (mode : Mode) (s : StoreSt)
    (pipelineOutcome : BuildOutcome)
    (graphResults : BuildResultData → List QueryResult)
    (vectorResults : List QueryResult) :
    List QueryResult × Option SearchKind × StoreSt :=
  match resolveSearch enableGraph hasGraphData mode s pipelineOutcome with
  | .error _ => ([], none, s)
  | .ok (.graphSearch g, s1) =>
    (sortResults (graphResults g), some (.graphSearch g), s1)
  | .ok (.vectorSearch warned, s1) =>
    (sortResults vectorResults, some (.vectorSearch warned), s1)

/-- The startup computation
`hasGraphData = graphStore.load() && graphStore.hasData()` of
`src/index.ts`. -/
def computeHasGraphData (st : StoreData) (fs : StoreFS) : Bool :=
  (load st fs none).2 && hasData (load st fs none).1

/-- A store directory whose `config.json` is absent while `index.json` is
present, parses, and reports a positive chunk count. -/
def fsNoConfig : StoreFS :=
  { graphDirExists := true,
    configFile := .missing,
    indexFile := .valid { chunkCount := 5, batchSize := 1000, lastUpdated := 0 },
    chunkBatches := fun _ => .missing,
    embeddingBatches := fun _ => .missing }

/-- C4, counterexample: on a store whose `config.json` is missing while
`index.json` is valid with `chunkCount = 5 > 0`, `hasData()` after `load()`
returns `true`, not `false` as the claim states — `hasData` inspects only the
index.  (`load()` itself does return `false` there.) -/
theorem c4_counterexample :
    hasData (load freshStoreData fsNoConfig none).1 = true ∧
    (load freshStoreData fsNoConfig none).2 = false := by
  decide

/-- C4, amended: for every store whose `config.json` is missing, corrupt or
version-mismatched (`loadConfig` yields null) while the graph directory exists
and `index.json` is valid with `chunkCount > 0`, `load()` returns `false` —
but `hasData()`, which inspects only the index, returns `true`; the server's
startup guard `load() && hasData()` therefore still reports no graph data. -/
theorem c4_amended (st : StoreData) (fs : StoreFS) (i : GraphIndex)
    (requestedBatchSize : Option Nat)
    (hdir : fs.graphDirExists = true)
    (hconf : loadConfig fs = none)
    (hidx : fs.indexFile = .valid i)
    (hcount : 0 < i.chunkCount) :
    (load st fs requestedBatchSize).2 = false ∧
    hasData (load st fs requestedBatchSize).1 = true ∧
    ((load st fs requestedBatchSize).2 && hasData (load st fs requestedBatchSize).1) = false := by
  simp [load, hdir, hconf, loadIndex, hidx, hasData, hcount]

/-- C4, witness: the amended theorem applied to the concrete store
`fsNoConfig`. -/
theorem c4_amended_witness :
    (load freshStoreData fsNoConfig none).2 = false ∧
    hasData (load freshStoreData fsNoConfig none).1 = true ∧
    ((load freshStoreData fsNoConfig none).2 && hasData (load freshStoreData fsNoConfig none).1) = false :=
  c4_amended freshStoreData fsNoConfig
    { chunkCount := 5, batchSize := 1000, lastUpdated := 0 }
    none rfl rfl rfl (by decide)

/-- C7, counterexample: an explicit override of `0` is not used verbatim —
`if (requestedBatchSize)` treats `0` as falsy, so adaptive sizing applies and
`getOptimalBatchSize 12500 (some 0)` is `5000`, not `0`. -/
theorem c7_counterexample :
    getOptimalBatchSize 12500 (some 0) = 5000 ∧
    getOptimalBatchSize 12500 (some 0) ≠ 0 := by
  decide

/-- C7, amended: with no override the reading batch size is chosen from
`chunkCount` by the tiers `< 5000 → 1000`, `< 50000 → 5000`,
`< 200000 → 10000`, else `20000`; for `chunkCount = 12500` the chosen size is
`5000`, yielding `3` logical batches of sizes `5000, 5000, 2500`; a *nonzero*
override is used verbatim and stored by `load` for the life of the instance,
while an override of `0` is ignored (JS falsiness) and adaptive sizing
applies. -/
theorem c7_amended (chunkCount r : Nat) (hr : r ≠ 0) :
    (chunkCount < 5000 → getOptimalBatchSize chunkCount none = 1000) ∧
    (5000 ≤ chunkCount → chunkCount < 50000 →
      getOptimalBatchSize chunkCount none = 5000) ∧
    (50000 ≤ chunkCount → chunkCount < 200000 →
      getOptimalBatchSize chunkCount none = 10000) ∧
    (200000 ≤ chunkCount → getOptimalBatchSize chunkCount none = 20000) ∧
    getOptimalBatchSize chunkCount (some r) = r ∧
    (∀ st fs i, fs.graphDirExists = true → fs.indexFile = .valid i →
      (load st fs (some r)).1.batchSize = r) ∧
    getOptimalBatchSize 12500 none = 5000 ∧
    totalBatches 12500 (getOptimalBatchSize 12500 none) = 3 ∧
    batchLen 12500 5000 0 = 5000 ∧
    batchLen 12500 5000 1 = 5000 ∧
    batchLen 12500 5000 2 = 2500 := by
  refine ⟨?_, ?_, ?_, ?_, ?_, ?_, by decide, by decide, by decide, by decide, by decide⟩
  · intro h
    simp only [getOptimalBatchSize, Option.getD_none]
    split_ifs <;> omega
  · intro h1 h2
    simp only [getOptimalBatchSize, Option.getD_none]
    split_ifs <;> omega
  · intro h1 h2
    simp only [getOptimalBatchSize, Option.getD_none]
    split_ifs <;> omega
  · intro h
    simp only [getOptimalBatchSize, Option.getD_none]
    split_ifs <;> omega
  · simp [getOptimalBatchSize, hr]
  · intro st fs i hdir hidx
    simp [load, hdir, loadIndex, hidx, getOptimalBatchSize, hr]

/-- A store with two logical batches (3 chunks, read batch size 2) in which
exactly one of batch 0's two files is unusable: its chunk file is valid with
two chunks while its embedding file is corrupt; batch 1 is fully valid with
one chunk and one embedding (the vector `[42]`, dimension 1). -/
def fsMisaligned : StoreFS :=
  { graphDirExists := true,
    configFile := .valid { version := "1.0", dimension := 1, threshold := 0,
                           createdAt := 0, updatedAt := 0 },
    indexFile := .valid { chunkCount := 3, batchSize := 2, lastUpdated := 0 },
    chunkBatches := fun b =>
      if b = 0 then .valid [{ id := "c0", text := "t0", source := "s", chunkIndex := 0 },
                            { id := "c1", text := "t1", source := "s", chunkIndex := 1 }]
      else if b = 1 then .valid [{ id := "c2", text := "t2", source := "s", chunkIndex := 2 }]
      else .missing,
    embeddingBatches := fun b =>
      if b = 0 then .corrupt
      else if b = 1 then .valid (encodeEmbeddings [[42]])
      else .missing }

/-- The `fsMisaligned` store after `load(2)` (the override matches the on-disk
partitioning of 2 chunks per batch). -/
def stMisaligned : StoreData :=
  (load freshStoreData fsMisaligned (some 2)).1

/-- What the build of `stMisaligned` hands to the graph engine: all three
chunks but only batch 1's single embedding. -/
def misalignedResult : BuildResultData :=
  { dimension := 1, threshold := 0,
    chunks := [{ id := "c0", text := "t0", source := "s", chunkIndex := 0 },
               { id := "c1", text := "t1", source := "s", chunkIndex := 1 },
               { id := "c2", text := "t2", source := "s", chunkIndex := 2 }],
    embeddings := [[42]] }

/-- C10: the build pipeline skips a batch's chunk file and embedding file
independently and never compares the totals: on `stMisaligned` (batch 0 has a
valid chunk file but a corrupt embedding file) the build reports success with
3 chunks but 1 embedding — unequal lengths — and batch 1's vector `[42]`,
which belongs to chunk `"c2"`, ends up at position 0, where the engine's
positional pairing attaches it to chunk `"c0"`. -/
theorem c10_independent_skips_misalign :
    buildGraphRAGInternal stMisaligned fsMisaligned none none =
      .ok (some misalignedResult) ∧
    misalignedResult.chunks.length = 3 ∧
    misalignedResult.embeddings.length = 1 ∧
    misalignedResult.chunks.length ≠ misalignedResult.embeddings.length ∧
    (misalignedResult.chunks.getD 0 { id := "", text := "", source := "", chunkIndex := 0 }).id = "c0" ∧
    (misalignedResult.chunks.getD 2 { id := "", text := "", source := "", chunkIndex := 0 }).id = "c2" ∧
    misalignedResult.embeddings.getD 0 [] = [42] :=
  ⟨by rfl, rfl, rfl, by decide, rfl, rfl, rfl⟩

/-- A store directory that was never created: `load()` returns false and no
graph data is ever available. -/
def fsNoData : StoreFS :=
  { graphDirExists := false,
    configFile := .missing,
    indexFile := .missing,
    chunkBatches := fun _ => .missing,
    embeddingBatches := fun _ => .missing }

/-- The store-state after a single `getOrBuildGraphRAG` call on a fresh
instance: BUILDING, awaiting promise 0, pipeline invoked once. -/
def storeAfterFirstCall : StoreSt :=
  (callStart freshStore).1

/-- C5: for every query with `mode=graph` against a store where `load()`
returned false, `hasGraphData` is false, mode resolution fails with the
explicit graph-unavailable error, and the outer handler turns that uncaught
exception into an empty result set with no search executed — in particular it
never falls back to vector search. -/
theorem c5_forced_graph_unavailable (st : StoreData) (fs : StoreFS)
    (enableGraph : Bool) (s : StoreSt) (pipelineOutcome : BuildOutcome)
    (graphResults : BuildResultData → List QueryResult)
    (vectorResults : List QueryResult)
    (hload : (load st fs none).2 = false) :
    computeHasGraphData st fs = false ∧
    resolveSearch enableGraph (computeHasGraphData st fs) .graph s pipelineOutcome =
      .error "Graph search requested but graph is not available. Use --enable-graph and ensure graph data exists." ∧
    executeQuery enableGraph (computeHasGraphData st fs) .graph s pipelineOutcome
      graphResults vectorResults = ([], none, s) := by
  have hdata : computeHasGraphData st fs = false := by
    simp [computeHasGraphData, hload]
  refine ⟨hdata, ?_, ?_⟩
  · simp [resolveSearch, hdata]
  · simp [executeQuery, resolveSearch, hdata]

/-- C5, witness: the error path at the concrete never-built store `fsNoData`
(graph directory absent, so `load()` is false), with graph search enabled and
a nonempty vector result available that must not be returned. -/
theorem c5_forced_graph_unavailable_witness :
    computeHasGraphData freshStoreData fsNoData = false ∧
    resolveSearch true (computeHasGraphData freshStoreData fsNoData) .graph freshStore (.ok none) =
      .error "Graph search requested but graph is not available. Use --enable-graph and ensure graph data exists." ∧
    executeQuery true (computeHasGraphData freshStoreData fsNoData) .graph freshStore (.ok none)
      (fun _ => []) [{ text := "v", source := "s", score := 1, chunkIndex := 0 }] =
      ([], none, freshStore) :=
  c5_forced_graph_unavailable freshStoreData fsNoData true freshStore (.ok none)
    (fun _ => []) [{ text := "v", source := "s", score := 1, chunkIndex := 0 }]
    (by decide)

/-- C6: for every query with `mode=graph` issued while the store's build state
is BUILDING (graph enabled and data present, as a forced graph query
requires), mode resolution downgrades to vector search with a warning; the
result is the sorted vector results, the outcome of the in-flight build is
never consulted (the same answer for every `pipelineOutcome`, so the query
does not wait), and the store — in particular its pipeline invocation
count — is unchanged, so no second build is triggered. -/
theorem c6_building_falls_back_to_vector (s : StoreSt)
    (pipelineOutcome : BuildOutcome)
    (graphResults : BuildResultData → List QueryResult)
    (vectorResults : List QueryResult)
    (hb : s.graphState = .building) :
    resolveSearch true true .graph s pipelineOutcome = .ok (.vectorSearch true, s) ∧
    executeQuery true true .graph s pipelineOutcome graphResults vectorResults =
      (sortResults vectorResults, some (.vectorSearch true), s) := by
  have hres : resolveSearch true true .graph s pipelineOutcome =
      .ok (.vectorSearch true, s) := by
    simp [resolveSearch, hb]
  exact ⟨hres, by simp [executeQuery, hres]⟩

/-- C6, witness: a forced graph query against the store `storeAfterFirstCall`
(which is in the BUILDING state) returns the vector results sorted descending,
with the store unchanged and one pipeline invocation in total. -/
theorem c6_building_falls_back_to_vector_witness :
    resolveSearch true true .graph storeAfterFirstCall (.ok none) =
      .ok (.vectorSearch true, storeAfterFirstCall) ∧
    executeQuery true true .graph storeAfterFirstCall (.ok none) (fun _ => [])
      [{ text := "a", source := "s", score := 1, chunkIndex := 0 },
       { text := "b", source := "s", score := 2, chunkIndex := 1 }] =
      ([{ text := "b", source := "s", score := 2, chunkIndex := 1 },
        { text := "a", source := "s", score := 1, chunkIndex := 0 }],
       some (.vectorSearch true), storeAfterFirstCall) := by
  have h := c6_building_falls_back_to_vector storeAfterFirstCall (.ok none)
    (fun _ => [])
    [{ text := "a", source := "s", score := 1, chunkIndex := 0 },
     { text := "b", source := "s", score := 2, chunkIndex := 1 }] rfl
  exact ⟨h.1, by rw [h.2]; rfl⟩

/-- C1, counterexample: the "both receive the identical failure" half is
false.  Two concurrent calls on an Idle store where the build rejects (e.g.
the in-repo `"Graph dimension not set"` error): the first caller catches the
rejection inside `getOrBuildGraphRAG` and resolves with null, while the
second caller, which was handed the in-flight promise itself, observes the
rejection — the two callers do not receive identical failures. -/
theorem c1_counterexample :
    (callStart freshStore).2 = .awaits 0 ∧
    (callStart storeAfterFirstCall).2 = .joins 0 ∧
    starterResult storeAfterFirstCall (.error "Graph dimension not set") = .ok none ∧
    joinerResult (.error "Graph dimension not set") =
      .error "Graph dimension not set" ∧
    starterResult storeAfterFirstCall (.error "Graph dimension not set") ≠
      joinerResult (.error "Graph dimension not set") := by
  decide

/-- C1, amended: two concurrent `getOrBuildGraphRAG` calls on an Idle store
run the construction pipeline exactly once — the second caller is handed the
already-in-flight promise (promise 0) rather than starting a second build,
and the store is unchanged by its arrival.  If the build resolves with a
handle both callers receive that identical handle; if it resolves null both
receive null; but if it rejects, the first caller receives null while the
joining caller observes the rejection itself. -/
theorem c1_single_build_shared_result (r : BuildOutcome) :
    (callStart freshStore).2 = .awaits 0 ∧
    storeAfterFirstCall.pipelineInvocations = 1 ∧
    callStart storeAfterFirstCall = (storeAfterFirstCall, .joins 0) ∧
    (∀ g, r = .ok (some g) →
      starterResult storeAfterFirstCall r = .ok (some g) ∧
      joinerResult r = .ok (some g)) ∧
    (r = .ok none →
      starterResult storeAfterFirstCall r = .ok none ∧
      joinerResult r = .ok none) ∧
    (∀ e, r = .error e →
      starterResult storeAfterFirstCall r = .ok none ∧
      joinerResult r = .error e) := by
  refine ⟨by decide, by decide, by decide, ?_, ?_, ?_⟩
  · rintro g rfl; exact ⟨rfl, rfl⟩
  · rintro rfl; exact ⟨rfl, rfl⟩
  · rintro e rfl; exact ⟨rfl, rfl⟩

/-- C1, witness: the amended theorem at a successful build outcome carrying
the concrete handle `misalignedResult`: both callers receive it. -/
theorem c1_single_build_shared_result_witness :
    (callStart freshStore).2 = .awaits 0 ∧
    storeAfterFirstCall.pipelineInvocations = 1 ∧
    callStart storeAfterFirstCall = (storeAfterFirstCall, .joins 0) ∧
    starterResult storeAfterFirstCall (.ok (some misalignedResult)) =
      .ok (some misalignedResult) ∧
    joinerResult (.ok (some misalignedResult)) = .ok (some misalignedResult) := by
  have h := c1_single_build_shared_result (.ok (some misalignedResult))
  have h4 := h.2.2.2.1 misalignedResult rfl
  exact ⟨h.1, h.2.1, h.2.2.1, h4.1, h4.2⟩

theorem uint32leBytes_length (v : Nat) : (uint32leBytes v).length = 4 := by
  simp [uint32leBytes]

theorem readUInt32LE_uint32leBytes (v : Nat) (rest : List Nat)
    (hv : v < 4294967296) :
    readUInt32LE (uint32leBytes v ++ rest) 0 = v := by
  simp only [readUInt32LE, uint32leBytes, List.cons_append, List.nil_append,
    List.getD_cons_zero, List.getD_cons_succ]
  omega

theorem readUInt32LE_append_four (a rest : List Nat) (ha : a.length = 4) (k : Nat) :
    readUInt32LE (a ++ rest) (4 + k) = readUInt32LE rest k := by
  have h : ∀ j : Nat, (a ++ rest).getD (4 + k + j) 0 = rest.getD (k + j) 0 := by
    intro j
    rw [List.getD_append_right a rest 0 (4 + k + j) (by omega), ha]
    congr 1
    omega
  have h0 := h 0
  have h1 := h 1
  have h2 := h 2
  have h3 := h 3
  simp only [Nat.add_zero] at h0
  unfold readUInt32LE
  rw [h0, h1, h2, h3]

theorem length_flatMap_uint32leBytes (l : List Nat) :
    (l.flatMap uint32leBytes).length = 4 * l.length := by
  induction l with
  | nil => rfl
  | cons x xs ih =>
    simp only [List.flatMap_cons, List.length_append, uint32leBytes_length, ih,
      List.length_cons]
    omega

theorem readUInt32LE_flatMap_uint32leBytes (l : List Nat) :
    ∀ m : Nat, m < l.length → l.getD m 0 < 4294967296 →
    readUInt32LE (l.flatMap uint32leBytes) (4 * m) = l.getD m 0 := by
  induction l with
  | nil => intro m hm _; simp at hm
  | cons x xs ih =>
    intro m hm hv
    cases m with
    | zero =>
      rw [List.flatMap_cons, Nat.mul_zero]
      exact readUInt32LE_uint32leBytes x (xs.flatMap uint32leBytes)
        (by simpa using hv)
    | succ m =>
      rw [List.flatMap_cons,
        show 4 * (m + 1) = 4 + 4 * m from by omega,
        readUInt32LE_append_four _ _ (uint32leBytes_length x) (4 * m)]
      exact ih m (by simpa using hm) (by simpa using hv)

theorem length_flatMap_id (records : List (List Nat)) (D : Nat)
    (hD : ∀ r ∈ records, r.length = D) :
    (records.flatMap id).length = records.length * D := by
  induction records with
  | nil => simp
  | cons r rs ih =>
    simp only [List.flatMap_cons, List.length_append, id_eq,
      hD r (List.mem_cons_self r rs), List.length_cons,
      ih (fun q hq => hD q (List.mem_cons_of_mem r hq))]
    ring

theorem getD_flatMap_id (records : List (List Nat)) (D : Nat)
    (hD : ∀ r ∈ records, r.length = D) :
    ∀ i j : Nat, i < records.length → j < D →
    (records.flatMap id).getD (i * D + j) 0 = (records.getD i []).getD j 0 := by
  induction records with
  | nil => intro i j hi _; simp at hi
  | cons r rs ih =>
    intro i j hi hj
    have hr : r.length = D := hD r (List.mem_cons_self r rs)
    cases i with
    | zero =>
      rw [List.flatMap_cons]
      simp only [id_eq]
      rw [show 0 * D + j = j from by omega,
        List.getD_append _ _ _ _ (by omega), List.getD_cons_zero]
    | succ i =>
      rw [List.flatMap_cons]
      simp only [id_eq]
      rw [List.getD_append_right _ _ _ _
          (by rw [hr, Nat.succ_mul]; omega),
        List.getD_cons_succ]
      have hidx : (i + 1) * D + j - r.length = i * D + j := by
        rw [hr, Nat.succ_mul]; omega
      rw [hidx]
      exact ih (fun q hq => hD q (List.mem_cons_of_mem r hq)) i j
        (by simpa using hi) hj

theorem range_map_getD {α : Type} (r : List α) (d : α) :
    (List.range r.length).map (fun j => r.getD j d) = r := by
  induction r with
  | nil => rfl
  | cons x xs ih =>
    rw [List.length_cons, List.range_succ_eq_map, List.map_cons, List.map_map]
    simp only [List.getD_cons_zero]
    congr 1

/-- On an exactly-sized backing allocation the general decoder coincides with
the byte-list decoder. -/
theorem decodeEmbeddings_exact_backing (bytes : List Nat) (dimension : Nat) :
    decodeEmbeddingsNode { pool := bytes, byteOffset := 0, byteLength := bytes.length }
        dimension =
      decodeEmbeddings bytes dimension := by
  simp only [decodeEmbeddingsNode, decodeEmbeddings, Nat.zero_add]

theorem getD_middle (pre mid post : List Nat) (k : Nat) (hk : k < mid.length) :
    (pre ++ mid ++ post).getD (pre.length + k) 0 = mid.getD k 0 := by
  rw [List.append_assoc,
    List.getD_append_right pre (mid ++ post) 0 (pre.length + k) (by omega),
    Nat.add_sub_cancel_left, List.getD_append mid post 0 k hk]

theorem readUInt32LE_middle (pre mid post : List Nat) (m : Nat)
    (hm : m + 4 ≤ mid.length) :
    readUInt32LE (pre ++ mid ++ post) (pre.length + m) = readUInt32LE mid m := by
  have h : ∀ j : Nat, j < 4 →
      (pre ++ mid ++ post).getD (pre.length + m + j) 0 = mid.getD (m + j) 0 := by
    intro j hj
    rw [show pre.length + m + j = pre.length + (m + j) from by omega]
    exact getD_middle pre mid post (m + j) (by omega)
  have h0 := h 0 (by omega)
  have h1 := h 1 (by omega)
  have h2 := h 2 (by omega)
  have h3 := h 3 (by omega)
  simp only [Nat.add_zero] at h0
  unfold readUInt32LE
  rw [h0, h1, h2, h3]

/-- A truncated batch file carved from a pool that still covers the declared
record payload decodes without error: the Float32Array bound is checked
against the pool, not the file. -/
theorem decodeEmbeddingsNode_pooled_truncated (pre bytes post : List Nat)
    (D : Nat) (h4 : 4 ≤ bytes.length)
    (hpool : pre.length + 4 + readUInt32LE bytes 0 * D * 4 ≤
      (pre ++ bytes ++ post).length) :
    ∃ out,
      decodeEmbeddingsNode
        { pool := pre ++ bytes ++ post, byteOffset := pre.length,
          byteLength := bytes.length } D = some out := by
  have hcount : readUInt32LE (pre ++ bytes ++ post) pre.length =
      readUInt32LE bytes 0 := by
    simpa using readUInt32LE_middle pre bytes post 0 (by omega)
  refine ⟨(List.range (readUInt32LE bytes 0)).map fun i =>
    (List.range D).map fun j =>
      readUInt32LE (pre ++ bytes ++ post)
        (pre.length + 4 + (i * D + j) * 4), ?_⟩
  simp only [decodeEmbeddingsNode]
  rw [if_neg (by omega), hcount, if_neg (by omega)]

/-- Every pooled placement of a *well-formed* batch file (exactly
`4 + count * dimension * 4` bytes) decodes identically to the exact-backing
decoder: all element reads stay inside the file's own bytes. -/
theorem decodeEmbeddingsNode_wellFormed (pre bytes post : List Nat) (D : Nat)
    (hwf : bytes.length = 4 + readUInt32LE bytes 0 * D * 4) :
    decodeEmbeddingsNode
        { pool := pre ++ bytes ++ post, byteOffset := pre.length,
          byteLength := bytes.length } D =
      decodeEmbeddings bytes D := by
  have hcount : readUInt32LE (pre ++ bytes ++ post) pre.length =
      readUInt32LE bytes 0 := by
    simpa using readUInt32LE_middle pre bytes post 0 (by omega)
  have hlenpool : (pre ++ bytes ++ post).length =
      pre.length + bytes.length + post.length := by
    simp only [List.length_append]
  have hvals : ∀ i j : Nat, i < readUInt32LE bytes 0 → j < D →
      readUInt32LE (pre ++ bytes ++ post) (pre.length + (4 + (i * D + j) * 4)) =
        readUInt32LE bytes (4 + (i * D + j) * 4) := by
    intro i j hi hj
    apply readUInt32LE_middle
    have hm : i * D + j < readUInt32LE bytes 0 * D := by
      have h1 : i * D + j < (i + 1) * D := by rw [Nat.succ_mul]; omega
      exact lt_of_lt_of_le h1 (Nat.mul_le_mul_right D hi)
    omega
  have hnode : decodeEmbeddingsNode
      { pool := pre ++ bytes ++ post, byteOffset := pre.length,
        byteLength := bytes.length } D =
      some ((List.range (readUInt32LE bytes 0)).map fun i =>
        (List.range D).map fun j =>
          readUInt32LE (pre ++ bytes ++ post)
            (pre.length + 4 + (i * D + j) * 4)) := by
    simp only [decodeEmbeddingsNode]
    rw [if_neg (by omega), hcount, if_neg (by omega)]
  have hbytes : decodeEmbeddings bytes D =
      some ((List.range (readUInt32LE bytes 0)).map fun i =>
        (List.range D).map fun j =>
          readUInt32LE bytes (4 + (i * D + j) * 4)) := by
    simp only [decodeEmbeddings]
    rw [if_neg (by omega), if_neg (by omega)]
  rw [hnode, hbytes]
  refine congrArg some (List.map_congr_left fun i hi =>
    List.map_congr_left fun j hj => ?_)
  rw [show pre.length + 4 + (i * D + j) * 4 =
    pre.length + (4 + (i * D + j) * 4) from by omega]
  exact hvals i j (List.mem_range.mp hi) (List.mem_range.mp hj)

theorem getD_mem {α : Type} (l : List α) (d : α) (n : Nat) (h : n < l.length) :
    l.getD n d ∈ l := by
  rw [List.getD_eq_getElem l d h]
  exact List.getElem_mem h

/-- Decoding inverts encoding: for record counts and bit patterns
representable in 32 bits and records all of width `D`, the decoder recovers
every record bit-exactly. -/
theorem decodeEmbeddings_encodeEmbeddings (records : List (List Nat)) (D : Nat)
    (hcount : records.length < 4294967296)
    (hdim : ∀ r ∈ records, r.length = D)
    (hval : ∀ r ∈ records, ∀ v ∈ r, v < 4294967296) :
    decodeEmbeddings (encodeEmbeddings records) D = some records := by
  have hpayload : records.flatMap (fun r => r.flatMap uint32leBytes) =
      (records.flatMap id).flatMap uint32leBytes := by
    rw [List.flatMap_assoc]
    simp only [id_eq]
  have hflatlen : (records.flatMap id).length = records.length * D :=
    length_flatMap_id records D hdim
  have hlen : (encodeEmbeddings records).length = 4 + 4 * (records.length * D) := by
    rw [encodeEmbeddings, List.length_append, uint32leBytes_length, hpayload,
      length_flatMap_uint32leBytes, hflatlen]
  have hread : readUInt32LE (encodeEmbeddings records) 0 = records.length := by
    rw [encodeEmbeddings]
    exact readUInt32LE_uint32leBytes records.length _ hcount
  have hvalD : ∀ i j : Nat, i < records.length → j < D →
      readUInt32LE (encodeEmbeddings records) (4 + (i * D + j) * 4) =
        (records.getD i []).getD j 0 := by
    intro i j hi hj
    have hm : i * D + j < records.length * D := by
      have h1 : i * D + j < (i + 1) * D := by rw [Nat.succ_mul]; omega
      exact lt_of_lt_of_le h1 (Nat.mul_le_mul_right D hi)
    have hmem : records.getD i [] ∈ records := getD_mem records [] i hi
    have hjlen : j < (records.getD i []).length := by rw [hdim _ hmem]; exact hj
    have hvlt : (records.getD i []).getD j 0 < 4294967296 :=
      hval _ hmem _ (getD_mem _ 0 j hjlen)
    have hgd : (records.flatMap id).getD (i * D + j) 0 =
        (records.getD i []).getD j 0 :=
      getD_flatMap_id records D hdim i j hi hj
    have step1 : readUInt32LE (encodeEmbeddings records) (4 + (i * D + j) * 4) =
        readUInt32LE ((records.flatMap id).flatMap uint32leBytes)
          (4 * (i * D + j)) := by
      rw [encodeEmbeddings, hpayload, show (i * D + j) * 4 = 4 * (i * D + j) from by ring]
      exact readUInt32LE_append_four _ _ (uint32leBytes_length records.length) _
    have step2 : readUInt32LE ((records.flatMap id).flatMap uint32leBytes)
        (4 * (i * D + j)) = (records.flatMap id).getD (i * D + j) 0 :=
      readUInt32LE_flatMap_uint32leBytes _ _ (by rw [hflatlen]; exact hm)
        (by rw [hgd]; exact hvlt)
    rw [step1, step2, hgd]
  have houter : (List.range records.length).map (fun i =>
      (List.range D).map fun j =>
        readUInt32LE (encodeEmbeddings records) (4 + (i * D + j) * 4)) = records := by
    have h1 : ∀ i ∈ List.range records.length,
        ((List.range D).map fun j =>
          readUInt32LE (encodeEmbeddings records) (4 + (i * D + j) * 4)) =
        records.getD i [] := by
      intro i hi
      rw [List.mem_range] at hi
      rw [List.map_congr_left fun j hj =>
        hvalD i j hi (List.mem_range.mp hj)]
      have hleni : (records.getD i []).length = D := hdim _ (getD_mem records [] i hi)
      rw [← hleni]
      exact range_map_getD _ 0
    rw [List.map_congr_left h1]
    exact range_map_getD records []
  unfold decodeEmbeddings
  rw [if_neg (by rw [hlen]; omega)]
  simp only [hread]
  rw [if_neg (by rw [hlen]; omega), houter]

theorem range_map_add_append (a b c : Nat) (hab : a ≤ b) (hbc : b ≤ c) :
    (List.range (b - a)).map (a + ·) ++ (List.range (c - b)).map (b + ·) =
      (List.range (c - a)).map (a + ·) := by
  have hsplit : c - a = (b - a) + (c - b) := by omega
  rw [hsplit, List.range_add, List.map_append, List.map_map]
  refine congrArg _ (List.map_congr_left fun x _ => ?_)
  simp only [Function.comp]
  omega

theorem wavesAux_flatten (fuel : Nat) : ∀ waveStart total : Nat,
    total - waveStart ≤ fuel →
    (wavesAux fuel waveStart total).flatten =
      (List.range (total - waveStart)).map (waveStart + ·) := by
  induction fuel with
  | zero =>
    intro waveStart total h
    have : total - waveStart = 0 := Nat.le_zero.mp h
    simp [wavesAux, this, show ¬(waveStart < total) by omega]
  | succ fuel ih =>
    intro waveStart total h
    by_cases hlt : waveStart < total
    · have hstep : total - min (waveStart + 50) total ≤ fuel := by omega
      simp only [wavesAux, if_pos hlt, List.flatten_cons, waveBatchNums,
        ih (min (waveStart + 50) total) total hstep]
      exact range_map_add_append waveStart (min (waveStart + 50) total) total
        (by omega) (by omega)
    · simp [wavesAux, hlt, show total - waveStart = 0 by omega]

/-- The concatenation of all waves is the full batch range in order. -/
theorem waves_flatten (total : Nat) : (waves total).flatten = List.range total := by
  rw [waves, wavesAux_flatten total 0 total (by omega)]
  simp

/-- Every wave contains at most `PARALLEL_BATCH_LIMIT = 50` batches. -/
theorem waves_length_le (total : Nat) :
    ∀ w ∈ waves total, w.length ≤ 50 := by
  have haux : ∀ fuel waveStart t : Nat, ∀ w ∈ wavesAux fuel waveStart t, w.length ≤ 50 := by
    intro fuel
    induction fuel with
    | zero => intro waveStart t w hw; simp [wavesAux] at hw
    | succ fuel ih =>
      intro waveStart t w hw
      by_cases hlt : waveStart < t
      · simp only [wavesAux, if_pos hlt, List.mem_cons] at hw
        rcases hw with rfl | hw
        · simp only [waveBatchNums, List.length_map, List.length_range]
          omega
        · exact ih _ _ w hw
      · simp [wavesAux, hlt] at hw
  exact haux total 0 total

theorem foldl_append_flatMap {α : Type} (f : Nat → List α) (l : List Nat) :
    ∀ init : List α,
    l.foldl (fun acc b => acc ++ f b) init = init ++ l.flatMap f := by
  induction l with
  | nil => intro init; simp
  | cons x xs ih => intro init; simp [List.foldl_cons, ih, List.append_assoc]

theorem pair_foldl_append (loadC : Nat → List GraphChunkData)
    (loadE : Nat → List (List Nat)) (wave : List Nat) :
    ∀ acc : List GraphChunkData × List (List Nat),
    (wave.map fun batchNum => (loadC batchNum, loadE batchNum)).foldl
        (fun acc2 r => (acc2.1 ++ r.1, acc2.2 ++ r.2)) acc =
      (acc.1 ++ wave.flatMap loadC, acc.2 ++ wave.flatMap loadE) := by
  induction wave with
  | nil => intro acc; simp
  | cons x xs ih => intro acc; simp [List.foldl_cons, ih, List.append_assoc]

theorem waveLoadAll_eq (loadC : Nat → List GraphChunkData)
    (loadE : Nat → List (List Nat)) (total : Nat) :
    waveLoadAll loadC loadE total =
      ((List.range total).flatMap loadC, (List.range total).flatMap loadE) := by
  have houter : ∀ (ws : List (List Nat)) (acc : List GraphChunkData × List (List Nat)),
      ws.foldl
        (fun acc wave =>
          (wave.map fun batchNum => (loadC batchNum, loadE batchNum)).foldl
            (fun acc2 r => (acc2.1 ++ r.1, acc2.2 ++ r.2)) acc) acc =
      (acc.1 ++ ws.flatten.flatMap loadC, acc.2 ++ ws.flatten.flatMap loadE) := by
    intro ws
    induction ws with
    | nil => intro acc; simp
    | cons w ws ih =>
      intro acc
      rw [List.foldl_cons, pair_foldl_append, ih]
      simp [List.append_assoc]
  have := houter (waves total) ([], [])
  simp only [waveLoadAll, this, List.nil_append, waves_flatten]

/-- On a store with loaded config and index, positive chunk count and nonzero
effective dimension, the build performs the wave-parallel load of every batch
and hands the accumulated lists to the engine. -/
theorem buildGraphRAGInternal_eq (st : StoreData) (fs : StoreFS)
    (c : GraphConfig) (i : GraphIndex)
    (dimension : Option Nat) (threshold : Option Int)
    (hc : st.config = some c) (hi : st.index = some i)
    (hn : 0 < i.chunkCount) (hd : dimension.getD c.dimension ≠ 0) :
    buildGraphRAGInternal st fs dimension threshold =
      .ok (some { dimension := dimension.getD c.dimension,
                  threshold := threshold.getD c.threshold,
                  chunks := (waveLoadAll (loadChunkBatch fs) (loadEmbeddingBatch st fs)
                    (totalBatches i.chunkCount st.batchSize)).1,
                  embeddings := (waveLoadAll (loadChunkBatch fs) (loadEmbeddingBatch st fs)
                    (totalBatches i.chunkCount st.batchSize)).2 }) := by
  have hdata : hasData st = true := by simp [hasData, hi, hn]
  simp [buildGraphRAGInternal, hdata, hc, hi, hd, loadGraphFromCache]

/-- `getChunks` written as a direct concatenation over the batch range. -/
theorem getChunks_eq (st : StoreData) (fs : StoreFS) (i : GraphIndex)
    (hi : st.index = some i) :
    getChunks st fs =
      (List.range (totalBatches i.chunkCount st.batchSize)).flatMap
        (loadChunkBatch fs) := by
  simp [getChunks, hi, foldl_append_flatMap]

/-- `getEmbeddings` written as a direct concatenation over the batch range. -/
theorem getEmbeddings_eq (st : StoreData) (fs : StoreFS) (i : GraphIndex)
    (hi : st.index = some i) :
    getEmbeddings st fs =
      (List.range (totalBatches i.chunkCount st.batchSize)).flatMap
        (loadEmbeddingBatch st fs) := by
  simp [getEmbeddings, hi, foldl_append_flatMap]

/-- C3: loading in sequential waves of at most 50 concurrent batch reads,
each wave's results appended in increasing batch-number order, produces
exactly the chunk list and embedding list of the naive sequential loop over
batches 0 through the last (`getChunks` / `getEmbeddings`), preserving global
record order; every build that succeeds hands the engine exactly those
lists. -/
theorem c3_wave_load_refines_sequential (st : StoreData) (fs : StoreFS)
    (i : GraphIndex) (hi : st.index = some i) :
    waveLoadAll (loadChunkBatch fs) (loadEmbeddingBatch st fs)
        (totalBatches i.chunkCount st.batchSize) =
      (getChunks st fs, getEmbeddings st fs) ∧
    (∀ w ∈ waves (totalBatches i.chunkCount st.batchSize), w.length ≤ 50) ∧
    (∀ (c : GraphConfig) (dimension : Option Nat) (threshold : Option Int),
      st.config = some c → 0 < i.chunkCount → dimension.getD c.dimension ≠ 0 →
      ∃ r, buildGraphRAGInternal st fs dimension threshold = .ok (some r) ∧
        r.chunks = getChunks st fs ∧ r.embeddings = getEmbeddings st fs) := by
  have hmain : waveLoadAll (loadChunkBatch fs) (loadEmbeddingBatch st fs)
      (totalBatches i.chunkCount st.batchSize) =
      (getChunks st fs, getEmbeddings st fs) := by
    rw [waveLoadAll_eq, getChunks_eq st fs i hi, getEmbeddings_eq st fs i hi]
  refine ⟨hmain, waves_length_le _, ?_⟩
  intro c dimension threshold hc hn hd
  refine ⟨_, buildGraphRAGInternal_eq st fs c i dimension threshold hc hi hn hd, ?_, ?_⟩
  · simp [hmain]
  · simp [hmain]

/-- C3, witness: on the concrete two-batch store `stMisaligned`, the wave
load, the sequential loops, and the lists a successful build hands to the
engine all agree. -/
theorem c3_wave_load_refines_sequential_witness :
    waveLoadAll (loadChunkBatch fsMisaligned)
        (loadEmbeddingBatch stMisaligned fsMisaligned) (totalBatches 3 2) =
      (getChunks stMisaligned fsMisaligned, getEmbeddings stMisaligned fsMisaligned) ∧
    (∀ w ∈ waves (totalBatches 3 2), w.length ≤ 50) ∧
    (∃ r, buildGraphRAGInternal stMisaligned fsMisaligned none none = .ok (some r) ∧
      r.chunks = getChunks stMisaligned fsMisaligned ∧
      r.embeddings = getEmbeddings stMisaligned fsMisaligned) := by
  have h := c3_wave_load_refines_sequential stMisaligned fsMisaligned
    { chunkCount := 3, batchSize := 2, lastUpdated := 0 } rfl
  exact ⟨h.1, h.2.1, h.2.2
    { version := "1.0", dimension := 1, threshold := 0, createdAt := 0, updatedAt := 0 }
    none none rfl (by decide) (by decide)⟩

/-- The store directory `fs` with batch `b`'s chunk file replaced by `v`. -/
def setChunkBatch (fs : StoreFS) (b : Nat) (v : FileState (List GraphChunkData)) :
    StoreFS :=
  { fs with chunkBatches := Function.update fs.chunkBatches b v }

/-- The store directory `fs` with batch `b`'s embedding file replaced by `v`. -/
def setEmbeddingBatch (fs : StoreFS) (b : Nat) (v : FileState (List Nat)) :
    StoreFS :=
  { fs with embeddingBatches := Function.update fs.embeddingBatches b v }

/-- The build consults the file system only through the two per-batch
loaders. -/
theorem buildGraphRAGInternal_congr (st : StoreData) (fs1 fs2 : StoreFS)
    (dimension : Option Nat) (threshold : Option Int)
    (h1 : loadChunkBatch fs1 = loadChunkBatch fs2)
    (h2 : loadEmbeddingBatch st fs1 = loadEmbeddingBatch st fs2) :
    buildGraphRAGInternal st fs1 dimension threshold =
      buildGraphRAGInternal st fs2 dimension threshold := by
  unfold buildGraphRAGInternal
  rw [h1, h2]

theorem loadChunkBatch_update_degraded (fs : StoreFS) (b : Nat)
    (v : FileState (List GraphChunkData))
    (hv : v = .missing ∨ v = .corrupt) :
    loadChunkBatch (setChunkBatch fs b v) =
      loadChunkBatch (setChunkBatch fs b (.valid [])) := by
  funext n
  by_cases hn : n = b
  · subst hn
    rcases hv with rfl | rfl <;>
      simp [loadChunkBatch, setChunkBatch, Function.update_same]
  · simp [loadChunkBatch, setChunkBatch, Function.update_noteq hn]

theorem loadEmbeddingBatch_update_degraded (st : StoreData) (fs : StoreFS) (b : Nat)
    (v : FileState (List Nat)) (hv : v = .missing ∨ v = .corrupt) :
    loadEmbeddingBatch st (setEmbeddingBatch fs b v) =
      loadEmbeddingBatch st (setEmbeddingBatch fs b .missing) := by
  funext n
  by_cases hn : n = b
  · subst hn
    rcases hv with rfl | rfl <;>
      simp [loadEmbeddingBatch, setEmbeddingBatch, Function.update_same]
  · simp [loadEmbeddingBatch, setEmbeddingBatch, Function.update_noteq hn]

/-- C8: during a build from disk on a store with data, every missing or
corrupt batch file degrades to an empty batch that is skipped — the build
still succeeds with a handle and produces exactly what it would with an
empty batch in that slot — and a zero effective dimension is a fatal
configuration error, raised before any batch I/O: for dimension 0 the build
reports the `"Graph dimension not set"` error identically on *every* file
system, so no batch file is ever consulted. -/
theorem c8_degrade_batches_abort_on_zero_dim (st : StoreData) (fs : StoreFS)
    (c : GraphConfig) (i : GraphIndex)
    (dimension : Option Nat) (threshold : Option Int)
    (hc : st.config = some c) (hi : st.index = some i) (hn : 0 < i.chunkCount) :
    (dimension.getD c.dimension ≠ 0 → ∀ (b : Nat)
        (v : FileState (List GraphChunkData)) (w : FileState (List Nat)),
      (v = .missing ∨ v = .corrupt) → (w = .missing ∨ w = .corrupt) →
      (∃ r, buildGraphRAGInternal st (setChunkBatch fs b v) dimension threshold =
        .ok (some r)) ∧
      buildGraphRAGInternal st (setChunkBatch fs b v) dimension threshold =
        buildGraphRAGInternal st (setChunkBatch fs b (.valid [])) dimension threshold ∧
      (∃ r, buildGraphRAGInternal st (setEmbeddingBatch fs b w) dimension threshold =
        .ok (some r)) ∧
      buildGraphRAGInternal st (setEmbeddingBatch fs b w) dimension threshold =
        buildGraphRAGInternal st (setEmbeddingBatch fs b .missing) dimension threshold) ∧
    (dimension.getD c.dimension = 0 → ∀ fs2 : StoreFS,
      buildGraphRAGInternal st fs2 dimension threshold =
        .error "Graph dimension not set") := by
  constructor
  · intro hd b v w hv hw
    refine ⟨⟨_, buildGraphRAGInternal_eq st (setChunkBatch fs b v) c i
        dimension threshold hc hi hn hd⟩,
      buildGraphRAGInternal_congr st _ _ dimension threshold
        (loadChunkBatch_update_degraded fs b v hv) rfl,
      ⟨_, buildGraphRAGInternal_eq st (setEmbeddingBatch fs b w) c i
        dimension threshold hc hi hn hd⟩,
      buildGraphRAGInternal_congr st _ _ dimension threshold rfl
        (loadEmbeddingBatch_update_degraded st fs b w hw)⟩
  · intro hd fs2
    have hdata : hasData st = true := by simp [hasData, hi, hn]
    simp [buildGraphRAGInternal, hdata, hc, hi, hd]

/-- C8, witness: on the concrete store `stMisaligned` (effective dimension 1)
a corrupt chunk file and a missing embedding file for batch 0 each degrade to
an empty batch with the build succeeding, and with a forced dimension
override of 0 the build errors identically on `fsMisaligned` and on the empty
`fsNoData`, consulting no batch file. -/
theorem c8_degrade_batches_abort_on_zero_dim_witness :
    (∃ r, buildGraphRAGInternal stMisaligned (setChunkBatch fsMisaligned 0 .corrupt)
      none none = .ok (some r)) ∧
    buildGraphRAGInternal stMisaligned (setChunkBatch fsMisaligned 0 .corrupt)
        none none =
      buildGraphRAGInternal stMisaligned (setChunkBatch fsMisaligned 0 (.valid []))
        none none ∧
    (∃ r, buildGraphRAGInternal stMisaligned (setEmbeddingBatch fsMisaligned 0 .missing)
      none none = .ok (some r)) ∧
    buildGraphRAGInternal stMisaligned fsMisaligned (some 0) none =
      .error "Graph dimension not set" ∧
    buildGraphRAGInternal stMisaligned fsNoData (some 0) none =
      .error "Graph dimension not set" := by
  have h := c8_degrade_batches_abort_on_zero_dim stMisaligned fsMisaligned
    { version := "1.0", dimension := 1, threshold := 0, createdAt := 0, updatedAt := 0 }
    { chunkCount := 3, batchSize := 2, lastUpdated := 0 }
    none none rfl rfl (by decide)
  have ha := h.1 (by decide) 0 .corrupt .missing (Or.inr rfl) (Or.inl rfl)
  have h0 := c8_degrade_batches_abort_on_zero_dim stMisaligned fsMisaligned
    { version := "1.0", dimension := 1, threshold := 0, createdAt := 0, updatedAt := 0 }
    { chunkCount := 3, batchSize := 2, lastUpdated := 0 }
    (some 0) none rfl rfl (by decide)
  exact ⟨ha.1, ha.2.1, ha.2.2.1, h0.2 rfl fsMisaligned, h0.2 rfl fsNoData⟩

/-- A store directory like `fsMisaligned` but whose every embedding batch
file is 6 bytes long: a header declaring 2 records but only 2 payload bytes
where `4 + 2 * 1 * 4 = 12` are required. -/
def fsShort : StoreFS :=
  { graphDirExists := true,
    configFile := .valid { version := "1.0", dimension := 1, threshold := 0,
                           createdAt := 0, updatedAt := 0 },
    indexFile := .valid { chunkCount := 3, batchSize := 2, lastUpdated := 0 },
    chunkBatches := fun _ => .missing,
    embeddingBatches := fun _ => .valid [2, 0, 0, 0, 9, 9] }

/-- The 6-byte truncated batch file `[2,0,0,0,9,9]` (it declares 2 records of
dimension 1, requiring 12 bytes) as Node returns it for a small read: carved
from the shared allocation pool, whose residual bytes (here 7s, standing for
whatever earlier allocations left behind) extend past the file. -/
def pooledTruncatedBuffer : NodeBuffer :=
  { pool := [2, 0, 0, 0, 9, 9, 7, 7, 7, 7, 7, 7],
    byteOffset := 0,
    byteLength := 6 }

/-- C9, counterexample: the short-buffer half of the claim is false on the
program.  The 6-byte file `[2,0,0,0,9,9]` is shorter than the
`4 + record_count * dimension * 4 = 12` bytes its header declares, yet when
Node serves it from its allocation pool (`pooledTruncatedBuffer`) the
`Float32Array` bound — checked against the backing pool, not the file —
passes, and decoding succeeds, returning two garbage records read from
adjacent pool memory instead of failing with a corrupt-batch error; only the
exact-backing decode of the same bytes errors. -/
theorem c9_counterexample :
    ([2, 0, 0, 0, 9, 9] : List Nat).length <
      4 + readUInt32LE [2, 0, 0, 0, 9, 9] 0 * 1 * 4 ∧
    decodeEmbeddingsNode pooledTruncatedBuffer 1 =
      some [[117901577], [117901063]] ∧
    decodeEmbeddingsNode pooledTruncatedBuffer 1 ≠ none ∧
    decodeEmbeddings [2, 0, 0, 0, 9, 9] 1 = none := by
  decide

/-- C9, amended: encoding `N` records of dimension `D` in the batch format
`[uint32 LE record_count][record_count x dimension x float32 LE, row-major]`
and decoding yields bit-identical vectors for all `N x D` values (floats are
modelled as their 32-bit patterns, so bit-identity is equality of the
patterns).  Decoding a buffer shorter than `4 + record_count * dimension * 4`
bytes fails with a corrupt-batch error — and the loader degrades it to an
empty batch — when the buffer's backing allocation is exactly the file's
bytes (Node's non-pooled reads, files of at least 4 KiB); but for a small
file carved from a pool that still covers the declared size, the
`Float32Array` bound is checked against the backing pool, so the truncated
file decodes without error to garbage records read from adjacent pool memory
rather than failing. -/
theorem c9_amended_roundtrip_short_buffer
    (records : List (List Nat)) (D : Nat)
    (hcount : records.length < 4294967296)
    (hdim : ∀ r ∈ records, r.length = D)
    (hval : ∀ r ∈ records, ∀ v ∈ r, v < 4294967296)
    (buffer : List Nat)
    (hshort : buffer.length < 4 + readUInt32LE buffer 0 * D * 4) :
    decodeEmbeddingsNode
        { pool := encodeEmbeddings records, byteOffset := 0,
          byteLength := (encodeEmbeddings records).length } D = some records ∧
    decodeEmbeddingsNode
        { pool := buffer, byteOffset := 0, byteLength := buffer.length } D = none ∧
    (∀ (st : StoreData) (fs : StoreFS) (b : Nat) (c : GraphConfig),
      st.config = some c → c.dimension = D →
      fs.embeddingBatches b = .valid buffer →
      loadEmbeddingBatch st fs b = []) ∧
    (∀ pre post : List Nat, 4 ≤ buffer.length →
      pre.length + 4 + readUInt32LE buffer 0 * D * 4 ≤
        (pre ++ buffer ++ post).length →
      ∃ out,
        decodeEmbeddingsNode
          { pool := pre ++ buffer ++ post, byteOffset := pre.length,
            byteLength := buffer.length } D = some out) := by
  have hnone : decodeEmbeddings buffer D = none := by
    simp only [decodeEmbeddings]
    by_cases h4 : buffer.length < 4
    · rw [if_pos h4]
    · rw [if_neg h4, if_pos hshort]
  refine ⟨?_, ?_, ?_, ?_⟩
  · rw [decodeEmbeddings_exact_backing]
    exact decodeEmbeddings_encodeEmbeddings records D hcount hdim hval
  · rw [decodeEmbeddings_exact_backing]
    exact hnone
  · intro st fs b c hc hcd hfs
    simp [loadEmbeddingBatch, hfs, hc, hcd, hnone]
  · intro pre post h4 hpool
    exact decodeEmbeddingsNode_pooled_truncated pre buffer post D h4 hpool

/-- C9, witness: the round trip at two records of dimension 1 with bit
patterns `1` and `4294967295`; the 6-byte truncated buffer `[2,0,0,0,9,9]`
(declaring 2 records of dimension 1, requiring 12 bytes), which on an
exact backing decodes to an error and whose batch the loader degrades to `[]`
on the concrete store `stMisaligned`; and the same bytes inside a 12-byte
pool, where decoding succeeds instead. -/
theorem c9_amended_roundtrip_short_buffer_witness :
    decodeEmbeddingsNode
        { pool := encodeEmbeddings [[1], [4294967295]], byteOffset := 0,
          byteLength := (encodeEmbeddings [[1], [4294967295]]).length } 1 =
      some [[1], [4294967295]] ∧
    decodeEmbeddingsNode
        { pool := [2, 0, 0, 0, 9, 9], byteOffset := 0, byteLength := 6 } 1 =
      none ∧
    loadEmbeddingBatch stMisaligned fsShort 0 = [] ∧
    (∃ out,
      decodeEmbeddingsNode
        { pool := [] ++ [2, 0, 0, 0, 9, 9] ++ [7, 7, 7, 7, 7, 7],
          byteOffset := List.length ([] : List Nat), byteLength := 6 } 1 =
        some out) := by
  have h := c9_amended_roundtrip_short_buffer [[1], [4294967295]] 1
    (by decide) (by decide) (by decide) [2, 0, 0, 0, 9, 9] (by decide)
  exact ⟨h.1, h.2.1,
    h.2.2.1 stMisaligned fsShort 0
      { version := "1.0", dimension := 1, threshold := 0, createdAt := 0, updatedAt := 0 }
      rfl rfl rfl,
    h.2.2.2 [] [7, 7, 7, 7, 7, 7] (by decide) (by decide)⟩

/-- Structural invariant of reachable store states: READY always carries an
instance, BUILDING always carries the in-flight promise, and a pending settle
continuation exists only while BUILDING. -/
def StoreInv (s : StoreSt) : Prop :=
  (s.graphState = .ready → s.graphInstance.isSome = true) ∧
  (s.graphState = .building → s.buildPromise.isSome = true) ∧
  (s.pendingSettle = true → s.graphState = .building)

theorem storeInv_step {s s' : StoreSt} (hinv : StoreInv s) (h : StoreStep s s') :
    StoreInv s' := by
  obtain ⟨hready, hbuilding, hpending⟩ := hinv
  cases h with
  | call =>
    unfold callStart
    split_ifs with h1 h2 h3
    · exact ⟨hready, hbuilding, hpending⟩
    · exact ⟨hready, hbuilding, hpending⟩
    · exact ⟨hready, hbuilding, hpending⟩
    · exact ⟨by intro h; simp at h, by intro _; rfl, by intro _; rfl⟩
  | settleStep r hp =>
    cases r with
    | ok g =>
      cases g with
      | some g => exact ⟨by intro _; rfl, by simp [settle], by simp [settle]⟩
      | none => exact ⟨by simp [settle], by simp [settle], by simp [settle]⟩
    | error e => exact ⟨by simp [settle], by simp [settle], by simp [settle]⟩

theorem storeInv_reachable {s : StoreSt} (h : ReachableStore s) : StoreInv s := by
  induction h with
  | refl => exact ⟨by intro h; simp [freshStore] at h, by intro h; simp [freshStore] at h,
                   by intro h; simp [freshStore] at h⟩
  | tail _ hstep ih => exact storeInv_step ih hstep

/-- C2: on every reachable store state, each atomic operation moves the build
state only forward along Idle → Building → (Ready | Failed): a non-Idle state
never returns to Idle, READY and FAILED are terminal; and once FAILED, a
`getOrBuildGraphRAG` call returns null immediately, leaving the store — in
particular its pipeline invocation count — untouched, so no new build
starts. -/
theorem c2_state_monotonic {s s' : StoreSt} (hreach : ReachableStore s)
    (hstep : StoreStep s s') :
    (s.graphState ≠ .idle → s'.graphState ≠ .idle) ∧
    (s.graphState = .idle →
      s'.graphState = .idle ∨ s'.graphState = .building) ∧
    (s.graphState = .ready → s'.graphState = .ready) ∧
    (s.graphState = .failed → s'.graphState = .failed) ∧
    (s.graphState = .failed → callStart s = (s, .value none)) := by
  obtain ⟨hready, hbuilding, hpending⟩ := storeInv_reachable hreach
  have hfailedCall : s.graphState = .failed → callStart s = (s, .value none) := by
    intro hf
    unfold callStart
    rw [hf]
    simp
  refine ⟨?_, ?_, ?_, ?_, hfailedCall⟩
  · cases hstep with
    | call =>
      intro h
      unfold callStart
      split_ifs <;> simp_all
    | settleStep r hp =>
      intro h
      cases r with
      | ok g => cases g <;> simp [settle]
      | error e => simp [settle]
  · cases hstep with
    | call =>
      intro h
      unfold callStart
      split_ifs <;> simp_all
    | settleStep r hp =>
      intro h
      rw [hpending hp] at h
      simp at h
  · cases hstep with
    | call =>
      intro h
      unfold callStart
      split_ifs <;> simp_all
    | settleStep r hp =>
      intro h
      rw [hpending hp] at h
      simp at h
  · cases hstep with
    | call =>
      intro h
      rw [hfailedCall h]
      exact h
    | settleStep r hp =>
      intro h
      rw [hpending hp] at h
      simp at h

/-- The store-state after the first call's build promise resolves null:
FAILED, with the pipeline having run once. -/
def failedStore : StoreSt :=
  (settle storeAfterFirstCall (.ok none)).1

/-- C2, witness: along the concrete trace fresh → (first call: BUILDING) →
(build resolves null: FAILED) → (second call), the second call leaves the
state FAILED and returns null without touching the store. -/
theorem c2_state_monotonic_witness :
    (failedStore.graphState ≠ .idle →
      (callStart failedStore).1.graphState ≠ .idle) ∧
    (failedStore.graphState = .idle →
      (callStart failedStore).1.graphState = .idle ∨
      (callStart failedStore).1.graphState = .building) ∧
    (failedStore.graphState = .ready →
      (callStart failedStore).1.graphState = .ready) ∧
    (failedStore.graphState = .failed →
      (callStart failedStore).1.graphState = .failed) ∧
    (failedStore.graphState = .failed →
      callStart failedStore = (failedStore, .value none)) :=
  c2_state_monotonic
    (Relation.ReflTransGen.tail
      (Relation.ReflTransGen.tail (Relation.ReflTransGen.refl)
        (StoreStep.call freshStore))
      (StoreStep.settleStep storeAfterFirstCall (.ok none) rfl))
    (StoreStep.call failedStore)

/-- C7, witness: the amended theorem at `chunkCount = 12500`, override `7`,
checked on the concrete store `fsNoConfig` (whose index is valid). -/
theorem c7_amended_witness :
    getOptimalBatchSize 12500 (some 7) = 7 ∧
    getOptimalBatchSize 12500 none = 5000 ∧
    (load freshStoreData fsNoConfig (some 7)).1.batchSize = 7 := by
  have h := c7_amended 12500 7 (by decide)
  exact ⟨h.2.2.2.2.1,
         h.2.2.2.2.2.2.1,
         h.2.2.2.2.2.1 freshStoreData fsNoConfig
           { chunkCount := 5, batchSize := 1000, lastUpdated := 0 } rfl rfl⟩


